import Mathlib

/-!
Verification of the AI Bug Report Generator client against its specification.

The repository is a React application.  The state handlers of `App.tsx`, the
prompt builder and response handling of `services/geminiService.ts`, and the
text renderers of `components/ReportDisplay.tsx` and `utils.ts` are shallowly
embedded below.  React `useState` state is modelled as an explicit `AppState`
record, each event handler becomes a pure state transformer, asynchronous
generation calls are modelled by an explicit generator function passed in
(the network is external), and JavaScript objects keyed by numeric ids are
modelled as association lists.  JavaScript strings are Lean `String`s and
JavaScript numbers holding `Date.now()` values are `Nat`.

The repository contains two revisions of `App.tsx` / `types.ts` (an earlier
one with free-text `browser`/`os`/`device` environment hints and a later one
with a `severity` enum and Jira integration).  The embedding uses one
`BugReportInput` record carrying the environment-hint fields consumed by
`buildPrompt`, and the later revision's submit / Jira handlers; where the two
revisions differ this is noted at the definition.
-/

namespace BugReportGen

/-- `types.ts`: `Screenshot` — base64 payload, MIME type, name, data URL. -/
structure Screenshot where
  base64 : String
  mimeType : String
  name : String
  dataUrl : String
deriving Repr, DecidableEq

/-- The per-bug fields of `types.ts`: `BugReportInput` minus the `id`
(mirroring `const { id, ...bugData } = bug` in `handleSubmit`).  The
free-text environment hints `browser`/`os`/`device` are the fields read by
`buildPrompt` in `geminiService.ts`; an empty string models a JS falsy
(missing) hint. -/
structure BugData where
  title : String
  url : String
  steps : String
  expected : String
  actual : String
  browser : String
  os : String
  device : String
deriving Repr, DecidableEq

/-- `types.ts`: `BugReportInput` — one user-authored bug entry with its
session-stable numeric identifier (`Date.now()` at creation). -/
structure BugReportInput extends BugData where
  id : Nat
deriving Repr, DecidableEq

/-- `types.ts`: the `environment` object of a generated report. -/
structure BugEnvironment where
  browser : String
  os : String
  device : String
deriving Repr, DecidableEq

/-- `types.ts`: `GeneratedReport` minus `originalId` — the shape returned by
`generateBugReport` before the orchestrator attaches the id. -/
structure ReportCore where
  suggestedTitle : String
  summary : String
  stepsToReproduce : List String
  expectedBehavior : String
  actualBehavior : String
  impact : String
  environment : BugEnvironment
  suggestedFix : Option String
deriving Repr, DecidableEq

/-- `types.ts`: `GeneratedReport` — a generated report tagged with the
identifier of its originating `BugReportInput`. -/
structure GeneratedReport extends ReportCore where
  originalId : Nat
deriving Repr, DecidableEq

/-- Per-report Jira submission status, from the `jiraIssueStatus` state of
`App.tsx`: `'idle' | 'loading' | 'success' | 'error'`. -/
inductive JiraStatus where
  | idle
  | loading
  | success
  | error
deriving Repr, DecidableEq

/-- One `jiraIssueStatus` map entry: `{ status, message?, issueUrl? }`. -/
structure JiraIssueState where
  status : JiraStatus
  message : Option String
  issueUrl : Option String
deriving Repr, DecidableEq

/-- The `jiraConfig` state of `App.tsx`: `{ url, email, apiToken, projectKey }`. -/
structure JiraConfig where
  url : String
  email : String
  apiToken : String
  projectKey : String
deriving Repr, DecidableEq

/-- Lookup in a JS object used as an id-keyed map (`screenshots[id]`,
`jiraIssueStatus[id]`). -/
def lookupId {α : Type} (m : List (Nat × α)) (k : Nat) : Option α :=
  (m.find? (fun e => e.1 == k)).map (fun e => e.2)

/-- JS spread update `{ ...prev, [id]: v }` on an id-keyed object. -/
def setId {α : Type} (m : List (Nat × α)) (k : Nat) (v : α) : List (Nat × α) :=
  (m.filter (fun e => !(e.1 == k))) ++ [(k, v)]

/-- JS `delete newState[id]` on an id-keyed object (`removeBugForm`,
`removeScreenshot`). -/
def removeId {α : Type} (m : List (Nat × α)) (k : Nat) : List (Nat × α) :=
  m.filter (fun e => !(e.1 == k))

/-- The `useState` state of the `App` component that the verified handlers
touch. -/
structure AppState where
  projectName : String
  buildNumber : String
  companyLogo : Option Screenshot
  bugInputs : List BugReportInput
  screenshots : List (Nat × Screenshot)
  generatedReports : List GeneratedReport
  isLoading : Bool
  error : Option String
  jiraConfig : JiraConfig
  jiraIssueStatus : List (Nat × JiraIssueState)
deriving Repr, DecidableEq

/-- An uploaded `File` as the handlers observe it: its byte size, MIME type,
name, and the data URL produced by `FileReader.readAsDataURL`. -/
structure UploadFile where
  size : Nat
  mimeType : String
  name : String
  dataUrl : String
deriving Repr, DecidableEq

/-- `dataUrl.split(',')[1]` — the base64 payload of a data URL. -/
def dataUrlBase64 (dataUrl : String) : String :=
  ((dataUrl.splitOn ",").drop 1).headD ""

/-- The `Screenshot` record built in the `reader.onloadend` callbacks of
`handleFileChange` / `handleLogoChange`. -/
def screenshotOfFile (f : UploadFile) : Screenshot :=
  { base64 := dataUrlBase64 f.dataUrl
    mimeType := f.mimeType
    name := f.name
    dataUrl := f.dataUrl }

/-- `App.tsx` `handleFileChange`: reject a bug screenshot above 4 MiB with a
validation error and no screenshot-state change; otherwise clear the error
and store the screenshot under the bug's id (the successful `FileReader`
completion is modelled synchronously). -/
def handleFileChange (id : Nat) (f : UploadFile) (st : AppState) : AppState :=
  if f.size > 4 * 1024 * 1024 then
    { st with error := some "File size exceeds 4MB. Please upload a smaller image." }
  else
    { st with error := none
              screenshots := setId st.screenshots id (screenshotOfFile f) }

/-- `App.tsx` `handleLogoChange`: same shape as `handleFileChange` with a
1 MiB cap and the session-level `companyLogo` state. -/
def handleLogoChange (f : UploadFile) (st : AppState) : AppState :=
  if f.size > 1 * 1024 * 1024 then
    { st with error := some "Logo size exceeds 1MB. Please upload a smaller image." }
  else
    { st with error := none
              companyLogo := some (screenshotOfFile f) }

/-- The generation outcome for one bug: a parsed report or the thrown error
message.  `generateBugReport`'s network call is external, so the orchestrator
is verified for an arbitrary generator of this type. -/
abbrev GenResult := Except String ReportCore

/-- `Promise.all` over `bugInputs.map(bug => generateBugReport(bugData,
screenshots[id]).then(report => ({ ...report, originalId: id })))`: all
results in input order, or a failure if any call fails (the concrete error
kept is the leftmost; `Promise.all` surfaces whichever rejection settles
first, and only its existence is used below). -/
def runBatch (gen : BugData → Option Screenshot → GenResult)
    (shots : List (Nat × Screenshot)) :
    List BugReportInput → Except String (List GeneratedReport)
  | [] => Except.ok []
  | bug :: rest =>
    match gen bug.toBugData (lookupId shots bug.id) with
    | Except.error e => Except.error e
    | Except.ok r =>
      match runBatch gen shots rest with
      | Except.error e => Except.error e
      | Except.ok rs => Except.ok ({ toReportCore := r, originalId := bug.id } :: rs)

/-- The synchronous head of `handleSubmit` (later `App.tsx` revision):
`setIsLoading(true); setError(null); setGeneratedReports([]);
setJiraIssueStatus({})` — performed together before any generation result is
consulted.  (The earlier revision performs the same resets minus the Jira
map, which it does not have.) -/
def submitReset (st : AppState) : AppState :=
  { st with isLoading := true
            error := none
            generatedReports := []
            jiraIssueStatus := [] }

/-- The `err.message || '...'` fallback in `handleSubmit`'s catch block
(`||` replaces an empty, falsy message). -/
def submitErrorMessage (msg : String) : String :=
  if msg = "" then "An error occurred while generating the report." else msg

/-- The tail of `handleSubmit`: publish the reports on full success, or set
the batch-level error on any failure; `finally` clears `isLoading`. -/
def finishBatch (gen : BugData → Option Screenshot → GenResult)
    (st : AppState) : AppState :=
  match runBatch gen st.screenshots st.bugInputs with
  | Except.ok reports => { st with generatedReports := reports, isLoading := false }
  | Except.error msg => { st with error := some (submitErrorMessage msg), isLoading := false }

/-- `App.tsx` `handleSubmit`: reset, fan out one generation call per bug
entry, await all, publish or fail. -/
def handleSubmit (gen : BugData → Option Screenshot → GenResult)
    (st : AppState) : AppState :=
  finishBatch gen (submitReset st)

/-! Sample inputs used to instantiate the universally quantified theorems. -/

/-- A concrete bug entry for witnesses. -/
def bugA : BugReportInput :=
  { id := 1, title := "a", url := "u1", steps := "s1", expected := "e1"
    actual := "x1", browser := "", os := "", device := "" }

/-- A second concrete bug entry for witnesses. -/
def bugB : BugReportInput :=
  { id := 2, title := "b", url := "u2", steps := "s2", expected := "e2"
    actual := "x2", browser := "", os := "", device := "" }

/-- A concrete generated-report core for witnesses. -/
def sampleCore : ReportCore :=
  { suggestedTitle := "T", summary := "S", stepsToReproduce := ["s1", "s2"]
    expectedBehavior := "E", actualBehavior := "A", impact := "I"
    environment := { browser := "B", os := "O", device := "D" }
    suggestedFix := none }

/-- A concrete two-entry session state for witnesses. -/
def baseState : AppState :=
  { projectName := "", buildNumber := "", companyLogo := none
    bugInputs := [bugA, bugB], screenshots := []
    generatedReports := [⟨sampleCore, 9⟩], isLoading := false
    error := some "old error"
    jiraConfig := { url := "", email := "", apiToken := "", projectKey := "" }
    jiraIssueStatus := [(9, ⟨JiraStatus.error, some "old", none⟩)] }

/-- A stub generator that fails exactly on `bugB`'s data. -/
def genFailB : BugData → Option Screenshot → GenResult :=
  fun bd _ => if bd.title = "b" then Except.error "boom" else Except.ok sampleCore

/-- A stub generator that always succeeds. -/
def genOk : BugData → Option Screenshot → GenResult :=
  fun _ _ => Except.ok sampleCore

/-- A concrete upload of a given size, for the C4 witness. -/
def fileOfSize (n : Nat) : UploadFile :=
  { size := n, mimeType := "image/png", name := "shot.png"
    dataUrl := "data:image/png;base64,QUJD" }

/-! C5: identifier assignment.  `addBugForm` (and the initial `useState`
value) create entries with `id: Date.now()`; the clock value observed at
each creation is an input of the model. -/

/-- A fresh bug entry as built by `addBugForm` / the initial `useState`
value of the earlier revision: `Date.now()` id and empty text fields. -/
def freshBug (now : Nat) : BugReportInput :=
  { id := now, title := "", url := "", steps := "", expected := ""
    actual := "", browser := "", os := "", device := "" }

/-- The session's entry list together with the ids of every entry that ever
existed in the session (removal keeps the historical id). -/
structure Session where
  entries : List BugReportInput
  everIds : List Nat
deriving Repr, DecidableEq

/-- Session start: one default entry exists, created at clock value `now`. -/
def initialSession (now : Nat) : Session :=
  { entries := [freshBug now], everIds := [now] }

/-- `App.tsx` `addBugForm` at clock value `now`: append a fresh entry with
`id: Date.now()`. -/
def addBugForm (now : Nat) (s : Session) : Session :=
  { entries := s.entries ++ [freshBug now], everIds := s.everIds ++ [now] }

/-- `App.tsx` `removeBugForm`: drop the entry with the given id (its
screenshot removal is modelled in `AppState`; here only ids matter). -/
def removeBugForm (id : Nat) (s : Session) : Session :=
  { s with entries := s.entries.filter (fun bug => !(bug.id == id)) }

/-- One user action on the entry list, with the clock value `Date.now()`
returned during an add. -/
inductive SessionOp where
  | add (now : Nat)
  | remove (id : Nat)
deriving Repr, DecidableEq

/-- Apply one user action. -/
def applyOp (op : SessionOp) (s : Session) : Session :=
  match op with
  | SessionOp.add now => addBugForm now s
  | SessionOp.remove id => removeBugForm id s

/-- Run a sequence of user actions. -/
def runOps (s : Session) : List SessionOp → Session
  | [] => s
  | op :: rest => runOps (applyOp op s) rest

/-- The clock values observed by the add operations of a sequence. -/
def addTimes : List SessionOp → List Nat
  | [] => []
  | SessionOp.add now :: rest => now :: addTimes rest
  | SessionOp.remove _ :: rest => addTimes rest

/-! C8: the Jira issue-creation handler. -/

/-- What one invocation of `handleJiraCreate` does, in order: the sequence
of Jira statuses written for the report's id (with their messages), the
number of network requests issued (the handler contains none — the filing
call is explicitly simulated), and the global error banner it sets, if
any. -/
structure JiraRunResult where
  updates : List (JiraStatus × Option String)
  networkRequests : Nat
  globalError : Option String
deriving Repr, DecidableEq

/-- `App.tsx` `handleJiraCreate`: with any of the four config fields empty
(JS falsy), write `error` with the configuration message and return;
otherwise write `loading`, then (in the simulated timeout) a global error
banner and `error` with the proxy message.  No branch issues a network
request. -/
def handleJiraCreate (cfg : JiraConfig) : JiraRunResult :=
  if cfg.url = "" ∨ cfg.email = "" ∨ cfg.apiToken = "" ∨ cfg.projectKey = "" then
    { updates := [(JiraStatus.error, some "Jira config is missing.")]
      networkRequests := 0
      globalError := none }
  else
    { updates := [(JiraStatus.loading, none),
                  (JiraStatus.error, some "Backend proxy required")]
      networkRequests := 0
      globalError := some "Creating Jira issues directly from the browser is insecure and often blocked by CORS. This action must be handled by a backend proxy service. This is a simulated failure." }

/-- A Jira config with the API token missing, for the C8 witness. -/
def jiraCfgNoToken : JiraConfig :=
  { url := "j.example", email := "e@x", apiToken := "", projectKey := "P" }

/-- A fully filled Jira config, for the C8 witness. -/
def jiraCfgFull : JiraConfig :=
  { url := "j.example", email := "e@x", apiToken := "t", projectKey := "P" }

/-! C6: `geminiService.ts` `buildPrompt`.  The template literal is embedded
as an explicit concatenation (associativity choices are immaterial to the
resulting string and are picked to expose the pieces the claims talk
about). -/

/-- JS `s || d` on strings: an empty (falsy) string falls back to the
default. -/
def orDefault (s d : String) : String :=
  if s = "" then d else s

/-- The full-inference instruction emitted when no environment hint was
supplied. -/
def fullInferenceSentence : String :=
  "The user has not provided specific environment details. Please infer the Browser, OS, and Device from the context provided (including the screenshot if available)."

/-- The infer-the-missing-ones instruction of the partial-hint branch. -/
def inferMissingSentence : String :=
  "If any detail is missing, try to infer it."

/-- The first line of the partial-hint branch, up to
`inferMissingSentence`. -/
def hintHeader : String :=
  "\nThe user has provided the following environment details. Use them in your report. "

/-- `- Browser: ${bugInput.browser || 'Not provided'}` plus its newline. -/
def browserLine (bug : BugData) : String :=
  "- Browser: " ++ (orDefault bug.browser "Not provided" ++ "\n")

/-- `- OS: ${bugInput.os || 'Not provided'}` plus its newline. -/
def osLine (bug : BugData) : String :=
  "- OS: " ++ (orDefault bug.os "Not provided" ++ "\n")

/-- `- Device: ${bugInput.device || 'Not provided'}` plus its newline. -/
def deviceLine (bug : BugData) : String :=
  "- Device: " ++ (orDefault bug.device "Not provided" ++ "\n")

/-- The three environment bullet lines of the partial-hint branch. -/
def envLines (bug : BugData) : String :=
  browserLine bug ++ (osLine bug ++ deviceLine bug)

/-- The whole partial-hint template of `buildPrompt`. -/
def hintBlock (bug : BugData) : String :=
  hintHeader ++ inferMissingSentence ++ ("\n" ++ envLines bug)

/-- The `environmentHint` local of `buildPrompt`:
`(bugInput.browser || bugInput.os || bugInput.device) ? hint : fullInference`. -/
def environmentHint (bug : BugData) : String :=
  if bug.browser ≠ "" ∨ bug.os ≠ "" ∨ bug.device ≠ "" then hintBlock bug
  else fullInferenceSentence

/-- The prompt text before `environmentHint`, carrying the role preamble and
the verbatim user fields. -/
def promptHead (bug : BugData) : String :=
  "\nYou are an expert QA engineer. Your task is to take the following user-provided information and generate a professional, well-structured bug report.\nThe report should be clear, concise, and easy for a developer to understand and act upon.\n\nUser Input:\n- Title: "
    ++ bug.title ++ "\n- URL: " ++ bug.url ++ "\n- Steps to Reproduce:\n"
    ++ bug.steps ++ "\n- Expected Result: " ++ bug.expected
    ++ "\n- Actual Result: " ++ bug.actual ++ "\n\n"

/-- The image-attached note, present only when a screenshot accompanies the
request. -/
def imageSentence : String :=
  "An image of the bug has been provided. Analyze the image for additional context like UI elements, error messages, or visual glitches."

/-- The prompt text after `environmentHint`: the optional image note and
the closing strict-JSON instruction. -/
def promptTail (hasImage : Bool) : String :=
  "\n\n" ++ (if hasImage then imageSentence else "")
    ++ "\n\nPlease analyze this information and generate the bug report. Pay close attention to detail and infer potential impact and environmental factors where appropriate.\nFormat your response strictly as a JSON object that adheres to the provided schema. Do not include any markdown formatting or escape characters in the JSON output.\n"

/-- `geminiService.ts` `buildPrompt`. -/
def buildPrompt (bug : BugData) (hasImage : Bool) : String :=
  promptHead bug ++ environmentHint bug ++ promptTail hasImage

/-- `needle` occurs contiguously somewhere in `hay`. -/
def strOccurs (needle hay : String) : Prop :=
  ∃ p q, hay = p ++ needle ++ q

/-- A bug with no environment hints, for the C6 witness. -/
def bugNoHints : BugData :=
  { title := "Save fails", url := "/profile", steps := "1. Open profile 2. Click Save"
    expected := "Name updates", actual := "Page reloads, name unchanged"
    browser := "", os := "", device := "" }

/-- A bug with only a browser hint, for the C6 witness. -/
def bugBrowserHint : BugData :=
  { bugNoHints with browser := "Firefox" }

/-! C3: the response handling of `geminiService.ts` `generateBugReport`.
The network call is external; the embedded part is what the function does
with the response text: `JSON.parse` it inside a `try`, cast the result
with no field validation, and throw the invalid-format error only when
parsing throws.  The platform `JSON.parse` is modelled by a recursive
descent parser over the characters (fuel-indexed for structural
termination; numeric lexemes are kept as raw text and string escapes are
mapped one character at a time — neither detail is load-bearing for the
claims, which concern object fields). -/

/-- A parsed JSON document. -/
inductive Json where
  | null
  | bool (b : Bool)
  | num (lexeme : String)
  | str (s : String)
  | arr (elems : List Json)
  | obj (fields : List (String × Json))

/-- Leading JSON whitespace removal. -/
def skipWs : List Char → List Char
  | [] => []
  | c :: cs => if c = ' ' ∨ c = '\n' ∨ c = '\t' ∨ c = '\r' then skipWs cs else c :: cs

/-- The character produced by a JSON string escape `\c`. -/
def escapeChar (c : Char) : Char :=
  if c = 'n' then '\n'
  else if c = 't' then '\t'
  else if c = 'r' then '\r'
  else c

/-- Maximal run of number-lexeme characters starting a JSON number. -/
def numChar (c : Char) : Bool :=
  c.isDigit || c == '-' || c == '+' || c == '.' || c == 'e' || c == 'E'

/-- Lex a JSON number as its raw text. -/
def parseNumberTok (cs : List Char) : Option (Json × List Char) :=
  let lex := cs.takeWhile numChar
  if lex.isEmpty then none else some (Json.num ⟨lex⟩, cs.dropWhile numChar)

mutual

/-- Parse one JSON value (after skipping whitespace), returning it with the
unconsumed remainder. -/
def parseValue : Nat → List Char → Option (Json × List Char)
  | 0, _ => none
  | fuel + 1, cs =>
    match skipWs cs with
    | 'n' :: 'u' :: 'l' :: 'l' :: rest => some (Json.null, rest)
    | 't' :: 'r' :: 'u' :: 'e' :: rest => some (Json.bool true, rest)
    | 'f' :: 'a' :: 'l' :: 's' :: 'e' :: rest => some (Json.bool false, rest)
    | '"' :: rest =>
      (match parseJStringTail fuel rest with
       | some (s, r) => some (Json.str s, r)
       | none => none)
    | '[' :: rest =>
      (match skipWs rest with
       | ']' :: r2 => some (Json.arr [], r2)
       | _ =>
         match parseElems fuel rest with
         | some (xs, r2) => some (Json.arr xs, r2)
         | none => none)
    | '{' :: rest =>
      (match skipWs rest with
       | '}' :: r2 => some (Json.obj [], r2)
       | _ =>
         match parseMembers fuel rest with
         | some (fs, r2) => some (Json.obj fs, r2)
         | none => none)
    | cs2 => parseNumberTok cs2

/-- Parse the tail of a JSON string literal, the opening quote already
consumed. -/
def parseJStringTail : Nat → List Char → Option (String × List Char)
  | 0, _ => none
  | fuel + 1, cs =>
    match cs with
    | [] => none
    | '"' :: rest => some ("", rest)
    | '\\' :: c :: rest =>
      (match parseJStringTail fuel rest with
       | some (s, r) => some (⟨escapeChar c :: s.data⟩, r)
       | none => none)
    | c :: rest =>
      (match parseJStringTail fuel rest with
       | some (s, r) => some (⟨c :: s.data⟩, r)
       | none => none)

/-- Parse the comma-separated elements of a non-empty JSON array, up to and
including the closing bracket. -/
def parseElems : Nat → List Char → Option (List Json × List Char)
  | 0, _ => none
  | fuel + 1, cs =>
    match parseValue fuel cs with
    | none => none
    | some (v, r) =>
      match skipWs r with
      | ',' :: r2 =>
        (match parseElems fuel r2 with
         | some (vs, r3) => some (v :: vs, r3)
         | none => none)
      | ']' :: r2 => some ([v], r2)
      | _ => none

/-- Parse the members of a non-empty JSON object, up to and including the
closing brace. -/
def parseMembers : Nat → List Char → Option (List (String × Json) × List Char)
  | 0, _ => none
  | fuel + 1, cs =>
    match skipWs cs with
    | '"' :: rest =>
      (match parseJStringTail fuel rest with
       | none => none
       | some (k, r) =>
         match skipWs r with
         | ':' :: r2 =>
           (match parseValue fuel r2 with
            | none => none
            | some (v, r3) =>
              match skipWs r3 with
              | ',' :: r4 =>
                (match parseMembers fuel r4 with
                 | some (fs, r5) => some ((k, v) :: fs, r5)
                 | none => none)
              | '}' :: r4 => some ([(k, v)], r4)
              | _ => none)
         | _ => none)
    | _ => none

end

/-- The platform `JSON.parse`, as used on `response.text`: one value, no
trailing garbage. -/
def jsonParse (s : String) : Option Json :=
  match parseValue (s.length + 1) s.data with
  | some (j, rest) => if (skipWs rest).isEmpty then some j else none
  | none => none

/-- The response handling of `generateBugReport`: parse the response text
as JSON and return the parsed value as the report with no structural
validation (`reportData as Omit<GeneratedReport, 'originalId'>`); throw the
invalid-format error exactly when `JSON.parse` throws. -/
def generateBugReportParse (text : String) : Except String Json :=
  match jsonParse text with
  | some j => Except.ok j
  | none => Except.error "The AI returned an invalid response format."

/-- Whether a parsed JSON value is an object carrying the given key. -/
def jsonHasKey (j : Json) (k : String) : Bool :=
  match j with
  | Json.obj fs => fs.any (fun f => f.1 == k)
  | _ => false

/-- Field lookup on a parsed JSON object. -/
def jsonLookup (j : Json) (k : String) : Option Json :=
  match j with
  | Json.obj fs => (fs.find? (fun f => f.1 == k)).map (fun f => f.2)
  | _ => none

/-- The required fields of `reportSchema` in `geminiService.ts`:
`suggestedTitle, summary, stepsToReproduce, expectedBehavior,
actualBehavior, impact, environment`, the latter requiring
`browser, os, device`. -/
def hasRequiredFields (j : Json) : Bool :=
  jsonHasKey j "suggestedTitle" && jsonHasKey j "summary"
    && jsonHasKey j "stepsToReproduce" && jsonHasKey j "expectedBehavior"
    && jsonHasKey j "actualBehavior" && jsonHasKey j "impact"
    && (match jsonLookup j "environment" with
        | some env => jsonHasKey env "browser" && jsonHasKey env "os"
            && jsonHasKey env "device"
        | none => false)

/-- The spec's own example of a schema-violating response: parseable JSON
with every required field except `impact`. -/
def jsonMissingImpact : String :=
  "\x7b\"suggestedTitle\":\"t\",\"summary\":\"s\",\"stepsToReproduce\":[\"s1\"],\"expectedBehavior\":\"e\",\"actualBehavior\":\"a\",\"environment\":\x7b\"browser\":\"b\",\"os\":\"o\",\"device\":\"d\"\x7d\x7d"

/-- The value `JSON.parse` yields for `jsonMissingImpact`. -/
def parsedMissingImpact : Json :=
  Json.obj
    [("suggestedTitle", Json.str "t"),
     ("summary", Json.str "s"),
     ("stepsToReproduce", Json.arr [Json.str "s1"]),
     ("expectedBehavior", Json.str "e"),
     ("actualBehavior", Json.str "a"),
     ("environment", Json.obj
        [("browser", Json.str "b"), ("os", Json.str "o"),
         ("device", Json.str "d")])]

/-! C9 and C10: the plain-text rendering of `ReportDisplay.tsx`
(`generatePlainTextForCopy`) and the Jira markup rendering of `utils.ts`
(`generateJiraMarkup`).  JS `String.prototype.trim` is modelled at the
character-list level; `${index + 1}` is modelled by a decimal rendering of
`Nat` (fuel-indexed so it reduces structurally). -/

/-- Strip leading whitespace (JS `trimStart` half of `trim`). -/
def trimLeftC (cs : List Char) : List Char :=
  cs.dropWhile Char.isWhitespace

/-- Strip trailing whitespace (JS `trimEnd` half of `trim`). -/
def trimRightC (cs : List Char) : List Char :=
  (cs.reverse.dropWhile Char.isWhitespace).reverse

/-- JS `s.trim()`. -/
def jsTrim (s : String) : String :=
  ⟨trimRightC (trimLeftC s.data)⟩

/-- Decimal digits of `n`, most significant first (`fuel ≥ 1` suffices for
`n < 10^fuel`). -/
def natDigitsAux : Nat → Nat → List Char
  | 0, _ => []
  | fuel + 1, n =>
    if n < 10 then [Nat.digitChar n]
    else natDigitsAux fuel (n / 10) ++ [Nat.digitChar (n % 10)]

/-- The decimal rendering of a `Nat`, as JS interpolates a number. -/
def decimalStr (n : Nat) : String :=
  ⟨natDigitsAux (n + 1) n⟩

/-- `stepsToReproduce.map((step, index) => `(index + 1). step`)` — the
numbered step lines, starting at index `i`. -/
def numberedLines (i : Nat) : List String → List String
  | [] => []
  | s :: rest => (decimalStr (i + 1) ++ ". " ++ s) :: numberedLines (i + 1) rest

/-- JS `lines.join('\n')`. -/
def joinLines : List String → String
  | [] => ""
  | [l] => l
  | l :: rest => l ++ ("\n" ++ joinLines rest)

/-- `${reportData.suggestedFix || 'N/A'}` — an absent (or empty, falsy)
suggested fix renders as `N/A`. -/
def renderSuggestedFix : Option String → String
  | none => "N/A"
  | some s => if s = "" then "N/A" else s

/-- The numbered steps block of the plain-text rendering. -/
def plainStepsBlock (r : GeneratedReport) : String :=
  joinLines (numberedLines 0 r.stepsToReproduce)

/-- The body of the plain-text template of `generatePlainTextForCopy`,
between the template's leading newline and trailing indentation. -/
def plainBody (r : GeneratedReport) : String :=
  "**Bug Report: " ++ r.suggestedTitle ++ "**\n\n**Summary:**\n" ++ r.summary
    ++ "\n\n**Steps to Reproduce:**\n" ++ plainStepsBlock r
    ++ "\n\n**Expected Behavior:**\n" ++ r.expectedBehavior
    ++ "\n\n**Actual Behavior:**\n" ++ r.actualBehavior
    ++ "\n\n**Impact:**\n" ++ r.impact
    ++ "\n\n**Environment:**\n- Browser: " ++ r.environment.browser
    ++ "\n- OS: " ++ r.environment.os
    ++ "\n- Device: " ++ r.environment.device
    ++ "\n\n**Suggested Fix:**\n" ++ renderSuggestedFix r.suggestedFix

/-- `ReportDisplay.tsx` `generatePlainTextForCopy`: the trimmed template. -/
def generatePlainTextForCopy (r : GeneratedReport) : String :=
  jsTrim ("\n" ++ plainBody r ++ "\n        ")

/-- The `# step` lines of the Jira markup. -/
def jiraStepsBlock (r : GeneratedReport) : String :=
  joinLines (r.stepsToReproduce.map (fun step => "# " ++ step))

/-- The body of the Jira markup template of `utils.ts`
`generateJiraMarkup`. -/
def jiraBody (r : GeneratedReport) : String :=
  "h2. Summary\n" ++ r.summary
    ++ "\n\nh2. Steps to Reproduce\n" ++ jiraStepsBlock r
    ++ "\n\nh2. Expected Behavior\n" ++ r.expectedBehavior
    ++ "\n\nh2. Actual Behavior\n" ++ r.actualBehavior
    ++ "\n\nh2. Impact\n" ++ r.impact
    ++ "\n\nh2. Environment\n*Browser:* " ++ r.environment.browser
    ++ "\n*OS:* " ++ r.environment.os
    ++ "\n*Device:* " ++ r.environment.device
    ++ "\n\nh2. Suggested Fix\n" ++ renderSuggestedFix r.suggestedFix

/-- `utils.ts` `generateJiraMarkup`: the trimmed template. -/
def generateJiraMarkup (r : GeneratedReport) : String :=
  jsTrim ("\n" ++ jiraBody r ++ "\n    ")

/-- The on-screen gating of the Suggested Fix section in `SingleReport`:
`report.suggestedFix && <section>` shows it only for a truthy (present,
non-empty) value. -/
def displayShowsSuggestedFix (r : GeneratedReport) : Bool :=
  match r.suggestedFix with
  | none => false
  | some s => !(s == "")

/-- The steps-section header line of the plain-text template. -/
def stepsHeaderLine : List Char :=
  "**Steps to Reproduce:**".data

/-- Strip one leading `k. ` numbering mark from a line, when present. -/
def dropNumberMark (l : List Char) : List Char :=
  match l.dropWhile Char.isDigit with
  | '.' :: ' ' :: r => if (l.takeWhile Char.isDigit).isEmpty then l else r
  | _ => l

/-- Split a character list into its newline-separated lines. -/
def splitLinesC : List Char → List (List Char)
  | [] => [[]]
  | c :: cs =>
    if c = '\n' then [] :: splitLinesC cs
    else
      match splitLinesC cs with
      | [] => [[c]]
      | l :: ls => (c :: l) :: ls

/-- Modelled from the spec: the spec's round-trip property reads the
numbered steps back out of the rendered plain text, but the repository
contains no such parser (only the renderer); this is the inverse direction
it postulates.  Locate the steps-section header line, take the following
lines up to the first blank line, and strip each line's numbering mark. -/
def parseNumberedSteps (text : String) : List String :=
  ((((splitLinesC text.data).dropWhile (fun l => !(l == stepsHeaderLine))).drop
      1).takeWhile (fun l => !l.isEmpty)).map (fun l => ⟨dropNumberMark l⟩)

def plainFrontData (r : GeneratedReport) : List Char :=
  "**Bug Report: ".data ++ r.suggestedTitle.data ++ "**\n\n**Summary:**\n".data
    ++ r.summary.data ++ "\n\n**Steps to Reproduce:**\n".data
    ++ (plainStepsBlock r).data ++ "\n\n**Expected Behavior:**\n".data
    ++ r.expectedBehavior.data ++ "\n\n**Actual Behavior:**\n".data
    ++ r.actualBehavior.data ++ "\n\n**Impact:**\n".data ++ r.impact.data
    ++ "\n\n**Environment:**\n- Browser: ".data ++ r.environment.browser.data
    ++ "\n- OS: ".data ++ r.environment.os.data
    ++ "\n- Device: ".data ++ r.environment.device.data
    ++ "\n\n**Suggested Fix:*".data

def plainAfterStepsData (r : GeneratedReport) : List Char :=
  "**Expected Behavior:**\n".data ++ r.expectedBehavior.data
    ++ "\n\n**Actual Behavior:**\n".data ++ r.actualBehavior.data
    ++ "\n\n**Impact:**\n".data ++ r.impact.data
    ++ "\n\n**Environment:**\n- Browser: ".data ++ r.environment.browser.data
    ++ "\n- OS: ".data ++ r.environment.os.data
    ++ "\n- Device: ".data ++ r.environment.device.data
    ++ "\n\n**Suggested Fix:*".data
    ++ '*' :: trimRightC ('\n' :: ((renderSuggestedFix r.suggestedFix).data
        ++ "\n        ".data))

def jiraFrontData (r : GeneratedReport) : List Char :=
  "h2. Summary\n".data ++ r.summary.data
    ++ "\n\nh2. Steps to Reproduce\n".data ++ (jiraStepsBlock r).data
    ++ "\n\nh2. Expected Behavior\n".data ++ r.expectedBehavior.data
    ++ "\n\nh2. Actual Behavior\n".data ++ r.actualBehavior.data
    ++ "\n\nh2. Impact\n".data ++ r.impact.data
    ++ "\n\nh2. Environment\n*Browser:* ".data ++ r.environment.browser.data
    ++ "\n*OS:* ".data ++ r.environment.os.data
    ++ "\n*Device:* ".data ++ r.environment.device.data
    ++ "\n\nh2. Suggested Fi".data

def plainPreFixData (r : GeneratedReport) : List Char :=
  "**Bug Report: ".data ++ r.suggestedTitle.data ++ "**\n\n**Summary:**\n".data
    ++ r.summary.data ++ "\n\n**Steps to Reproduce:**\n".data
    ++ (plainStepsBlock r).data ++ "\n\n**Expected Behavior:**\n".data
    ++ r.expectedBehavior.data ++ "\n\n**Actual Behavior:**\n".data
    ++ r.actualBehavior.data ++ "\n\n**Impact:**\n".data ++ r.impact.data
    ++ "\n\n**Environment:**\n- Browser: ".data ++ r.environment.browser.data
    ++ "\n- OS: ".data ++ r.environment.os.data
    ++ "\n- Device: ".data ++ r.environment.device.data

def jiraPreFixData (r : GeneratedReport) : List Char :=
  "h2. Summary\n".data ++ r.summary.data
    ++ "\n\nh2. Steps to Reproduce\n".data ++ (jiraStepsBlock r).data
    ++ "\n\nh2. Expected Behavior\n".data ++ r.expectedBehavior.data
    ++ "\n\nh2. Actual Behavior\n".data ++ r.actualBehavior.data
    ++ "\n\nh2. Impact\n".data ++ r.impact.data
    ++ "\n\nh2. Environment\n*Browser:* ".data ++ r.environment.browser.data
    ++ "\n*OS:* ".data ++ r.environment.os.data
    ++ "\n*Device:* ".data ++ r.environment.device.data

/-- A report whose single step embeds a newline and a fake numbering mark,
for the C9 counterexample. -/
def reportNestedStep : GeneratedReport :=
  { suggestedTitle := "Crash on save", summary := "The app crashes."
    stepsToReproduce := ["a\n2. b"]
    expectedBehavior := "Saved", actualBehavior := "Crash", impact := "High"
    environment := { browser := "Chrome", os := "Windows", device := "Desktop" }
    suggestedFix := some "Guard the null", originalId := 3 }

/-- The same report with the two-step list that renders identically. -/
def reportSplitSteps : GeneratedReport :=
  { reportNestedStep with stepsToReproduce := ["a", "b"] }

/-- A well-behaved report for the C9 witness. -/
def reportRound : GeneratedReport :=
  { reportNestedStep with
    stepsToReproduce := ["Open the app", "Press save", "Observe the crash"] }

/-- A report with no suggested fix, for the C10 witness. -/
def reportNoFix : GeneratedReport :=
  { reportRound with suggestedFix := none }

/-! The theorems: batch-orchestration and state-reset properties, the
attachment boundaries, identifier uniqueness, prompt construction,
response handling, and the rendering properties, each with its claim
theorem and, where hypotheses are present, a concrete witness. -/

/-! Lemmas about the batch fan-out. -/

/-- If some entry's generation call fails, the whole `Promise.all` fails. -/
theorem runBatch_error_of_mem (gen : BugData → Option Screenshot → GenResult)
    (shots : List (Nat × Screenshot)) (inputs : List BugReportInput)
    (bug : BugReportInput) (hmem : bug ∈ inputs) (e : String)
    (hfail : gen bug.toBugData (lookupId shots bug.id) = Except.error e) :
    ∃ msg, runBatch gen shots inputs = Except.error msg := by
  induction inputs with
  | nil => cases hmem
  | cons hd tl ih =>
    rcases List.mem_cons.mp hmem with heq | htl
    · subst heq
      exact ⟨e, by simp [runBatch, hfail]⟩
    · rcases ih htl with ⟨msg, hmsg⟩
      cases hgen : gen hd.toBugData (lookupId shots hd.id) with
      | error e2 => exact ⟨e2, by simp [runBatch, hgen]⟩
      | ok r => exact ⟨msg, by simp [runBatch, hgen, hmsg]⟩

/-- If every entry's generation call succeeds, the batch succeeds and the
reports carry back exactly the input identifiers, in submission order. -/
theorem runBatch_ok_of_forall (gen : BugData → Option Screenshot → GenResult)
    (shots : List (Nat × Screenshot)) (inputs : List BugReportInput)
    (hok : ∀ bug ∈ inputs, ∃ r, gen bug.toBugData (lookupId shots bug.id) = Except.ok r) :
    ∃ reports, runBatch gen shots inputs = Except.ok reports ∧
      reports.map GeneratedReport.originalId = inputs.map BugReportInput.id := by
  induction inputs with
  | nil => exact ⟨[], rfl, rfl⟩
  | cons hd tl ih =>
    rcases hok hd (List.mem_cons_self hd tl) with ⟨r, hr⟩
    rcases ih (fun bug hb => hok bug (List.mem_cons_of_mem hd hb)) with ⟨rs, hrs, hmap⟩
    refine ⟨{ toReportCore := r, originalId := hd.id } :: rs, ?_, ?_⟩
    · simp [runBatch, hr, hrs]
    · simp [hmap]

/-! C1 -/

/-- C1: if any one of the batch's generation calls fails, the submit
results in a batch-level error and publishes zero reports — the
`generatedReports` collection stays empty, however many other calls
succeeded. -/
theorem batch_failure_publishes_nothing
    (gen : BugData → Option Screenshot → GenResult) (st : AppState)
    (h : ∃ bug ∈ st.bugInputs, ∃ e,
      gen bug.toBugData (lookupId st.screenshots bug.id) = Except.error e) :
    (handleSubmit gen st).generatedReports = [] ∧
      ∃ m, (handleSubmit gen st).error = some m := by
  rcases h with ⟨bug, hmem, e, hfail⟩
  rcases runBatch_error_of_mem gen st.screenshots st.bugInputs bug hmem e hfail with ⟨msg, hmsg⟩
  constructor
  · simp [handleSubmit, finishBatch, submitReset, hmsg]
  · exact ⟨submitErrorMessage msg, by simp [handleSubmit, finishBatch, submitReset, hmsg]⟩

/-- C1 witness: with `bugB` stubbed to fail, the two-entry batch publishes
nothing and surfaces one error. -/
theorem batch_failure_publishes_nothing_witness :
    (handleSubmit genFailB baseState).generatedReports = [] ∧
      ∃ m, (handleSubmit genFailB baseState).error = some m :=
  batch_failure_publishes_nothing genFailB baseState
    ⟨bugB, by decide, "boom", rfl⟩

/-! C2 -/

/-- C2: if every generation call succeeds, the submit publishes exactly one
report per input, with no error, and the list of `originalId`s equals the
list of input ids in submission order (hence the multisets of identifiers
agree and each report carries its source input's identifier). -/
theorem batch_success_publishes_all
    (gen : BugData → Option Screenshot → GenResult) (st : AppState)
    (h : ∀ bug ∈ st.bugInputs, ∃ r,
      gen bug.toBugData (lookupId st.screenshots bug.id) = Except.ok r) :
    (handleSubmit gen st).error = none ∧
      (handleSubmit gen st).generatedReports.length = st.bugInputs.length ∧
      (handleSubmit gen st).generatedReports.map GeneratedReport.originalId
        = st.bugInputs.map BugReportInput.id := by
  rcases runBatch_ok_of_forall gen st.screenshots st.bugInputs h with ⟨reports, hrun, hmap⟩
  refine ⟨?_, ?_, ?_⟩
  · simp [handleSubmit, finishBatch, submitReset, hrun]
  · have hlen : reports.length = st.bugInputs.length := by
      have := congrArg List.length hmap
      simpa using this
    simpa [handleSubmit, finishBatch, submitReset, hrun] using hlen
  · simpa [handleSubmit, finishBatch, submitReset, hrun] using hmap

/-- C2 witness: with an always-succeeding stub on the two-entry batch, both
reports are published with ids `[1, 2]`. -/
theorem batch_success_publishes_all_witness :
    (handleSubmit genOk baseState).error = none ∧
      (handleSubmit genOk baseState).generatedReports.length = baseState.bugInputs.length ∧
      (handleSubmit genOk baseState).generatedReports.map GeneratedReport.originalId
        = baseState.bugInputs.map BugReportInput.id :=
  batch_success_publishes_all genOk baseState (fun _ _ => ⟨sampleCore, rfl⟩)

/-! C7 -/

/-- C7: `handleSubmit` is, definitionally, the batch run applied to the
reset state, and the reset discards the previous results, clears the
previous error, and empties the per-report Jira submission statuses — all in
the same synchronous head of the submit action, before any generation
result is consulted. -/
theorem submit_resets_previous_state
    (gen : BugData → Option Screenshot → GenResult) (st : AppState) :
    handleSubmit gen st = finishBatch gen (submitReset st) ∧
      (submitReset st).generatedReports = [] ∧
      (submitReset st).error = none ∧
      (submitReset st).jiraIssueStatus = [] ∧
      (submitReset st).bugInputs = st.bugInputs ∧
      (submitReset st).screenshots = st.screenshots :=
  ⟨rfl, rfl, rfl, rfl, rfl, rfl⟩

/-! C4 -/

/-- Looking up the key just written by a JS spread update finds the new
value. -/
theorem lookupId_setId_self {α : Type} (m : List (Nat × α)) (k : Nat) (v : α) :
    lookupId (setId m k v) k = some v := by
  induction m with
  | nil => simp [lookupId, setId]
  | cons hd tl ih =>
    by_cases hk : hd.1 = k
    · simp [lookupId, setId, hk]
    · simp only [lookupId, setId] at ih ⊢
      simp [List.find?, hk]

/-- C4: a bug screenshot of exactly 4 MiB is accepted (error cleared, the
screenshot stored under the entry's id) and 4 MiB + 1 is rejected with the
validation message while the screenshot map is untouched; the company logo
has the same boundary at 1 MiB, with the logo state untouched on
rejection. -/
theorem attachment_size_boundaries (st : AppState) (id : Nat) (f : UploadFile) :
    (f.size = 4 * 1024 * 1024 →
      (handleFileChange id f st).error = none ∧
      lookupId (handleFileChange id f st).screenshots id = some (screenshotOfFile f)) ∧
    (f.size = 4 * 1024 * 1024 + 1 →
      (handleFileChange id f st).error
          = some "File size exceeds 4MB. Please upload a smaller image." ∧
      (handleFileChange id f st).screenshots = st.screenshots) ∧
    (f.size = 1024 * 1024 →
      (handleLogoChange f st).error = none ∧
      (handleLogoChange f st).companyLogo = some (screenshotOfFile f)) ∧
    (f.size = 1024 * 1024 + 1 →
      (handleLogoChange f st).error
          = some "Logo size exceeds 1MB. Please upload a smaller image." ∧
      (handleLogoChange f st).companyLogo = st.companyLogo) := by
  refine ⟨fun h4 => ?_, fun h4p => ?_, fun h1 => ?_, fun h1p => ?_⟩
  · have hle : ¬ f.size > 4 * 1024 * 1024 := by omega
    exact ⟨by simp [handleFileChange, hle], by
      simp [handleFileChange, hle, lookupId_setId_self]⟩
  · have hgt : f.size > 4 * 1024 * 1024 := by omega
    exact ⟨by simp [handleFileChange, hgt], by simp [handleFileChange, hgt]⟩
  · have hle : ¬ f.size > 1 * 1024 * 1024 := by omega
    exact ⟨by simp [handleLogoChange, hle], by simp [handleLogoChange, hle]⟩
  · have hgt : f.size > 1 * 1024 * 1024 := by omega
    exact ⟨by simp [handleLogoChange, hgt], by simp [handleLogoChange, hgt]⟩

/-- C4 witness: the four boundary cases evaluated at concrete files against
the concrete session state. -/
theorem attachment_size_boundaries_witness :
    ((handleFileChange 1 (fileOfSize (4 * 1024 * 1024)) baseState).error = none ∧
      lookupId (handleFileChange 1 (fileOfSize (4 * 1024 * 1024)) baseState).screenshots 1
        = some (screenshotOfFile (fileOfSize (4 * 1024 * 1024)))) ∧
    ((handleFileChange 1 (fileOfSize (4 * 1024 * 1024 + 1)) baseState).error
        = some "File size exceeds 4MB. Please upload a smaller image." ∧
      (handleFileChange 1 (fileOfSize (4 * 1024 * 1024 + 1)) baseState).screenshots
        = baseState.screenshots) ∧
    ((handleLogoChange (fileOfSize (1024 * 1024)) baseState).error = none ∧
      (handleLogoChange (fileOfSize (1024 * 1024)) baseState).companyLogo
        = some (screenshotOfFile (fileOfSize (1024 * 1024)))) ∧
    ((handleLogoChange (fileOfSize (1024 * 1024 + 1)) baseState).error
        = some "Logo size exceeds 1MB. Please upload a smaller image." ∧
      (handleLogoChange (fileOfSize (1024 * 1024 + 1)) baseState).companyLogo
        = baseState.companyLogo) :=
  ⟨(attachment_size_boundaries baseState 1 (fileOfSize (4 * 1024 * 1024))).1 rfl,
   (attachment_size_boundaries baseState 1 (fileOfSize (4 * 1024 * 1024 + 1))).2.1 rfl,
   (attachment_size_boundaries baseState 1 (fileOfSize (1024 * 1024))).2.2.1 rfl,
   (attachment_size_boundaries baseState 1 (fileOfSize (1024 * 1024 + 1))).2.2.2 rfl⟩

/-- Running a sequence extends the historical id list by exactly the add
operations' clock values. -/
theorem runOps_everIds (ops : List SessionOp) (s : Session) :
    (runOps s ops).everIds = s.everIds ++ addTimes ops := by
  induction ops generalizing s with
  | nil => simp [runOps, addTimes]
  | cons op rest ih =>
    cases op with
    | add now => simp [runOps, applyOp, addBugForm, addTimes, ih]
    | remove id => simp [runOps, applyOp, removeBugForm, addTimes, ih]

/-- C5 counterexample: two entry creations observing the same `Date.now()`
millisecond produce two entries with the same identifier — the claim that no
two entries ever share an identifier fails for this operation sequence. -/
theorem bug_ids_collide_counterexample :
    ¬ (runOps (initialSession 5) [SessionOp.add 5]).everIds.Nodup ∧
      (runOps (initialSession 5) [SessionOp.add 5]).entries.map BugReportInput.id
        = [5, 5] := by
  constructor
  · decide
  · decide

/-- C5 (amended): provided the clock values observed at the entry creations
are pairwise distinct (as with a monotonic millisecond clock never queried
twice in the same millisecond), no two entries that ever exist in the
session carry the same identifier, for every sequence of add and remove
operations. -/
theorem bug_ids_unique_of_distinct_times (t0 : Nat) (ops : List SessionOp)
    (h : (t0 :: addTimes ops).Nodup) :
    (runOps (initialSession t0) ops).everIds.Nodup := by
  rw [runOps_everIds]
  simpa [initialSession] using h

/-- C5 witness: a concrete add/remove/add sequence with distinct clock
values keeps all historical ids distinct. -/
theorem bug_ids_unique_of_distinct_times_witness :
    (1 :: addTimes [SessionOp.add 2, SessionOp.remove 1, SessionOp.add 3]).Nodup ∧
      (runOps (initialSession 1)
        [SessionOp.add 2, SessionOp.remove 1, SessionOp.add 3]).everIds.Nodup :=
  ⟨by decide,
   bug_ids_unique_of_distinct_times 1
     [SessionOp.add 2, SessionOp.remove 1, SessionOp.add 3] (by decide)⟩

/-- C8: with any of the four Jira configuration fields empty, the handler's
only status transition is directly to `error` with the configuration
message, with no network request and no `loading` transition; and a
`loading` transition happens exactly when all four fields are non-empty
(and then `networkRequests` is still 0 — the reference stubs the call). -/
theorem jira_create_requires_config (cfg : JiraConfig) :
    ((cfg.url = "" ∨ cfg.email = "" ∨ cfg.apiToken = "" ∨ cfg.projectKey = "") →
      (handleJiraCreate cfg).updates
          = [(JiraStatus.error, some "Jira config is missing.")] ∧
        (handleJiraCreate cfg).networkRequests = 0 ∧
        ∀ m, (JiraStatus.loading, m) ∉ (handleJiraCreate cfg).updates) ∧
    ((∃ m, (JiraStatus.loading, m) ∈ (handleJiraCreate cfg).updates) ↔
      (cfg.url ≠ "" ∧ cfg.email ≠ "" ∧ cfg.apiToken ≠ "" ∧ cfg.projectKey ≠ "")) := by
  by_cases h : cfg.url = "" ∨ cfg.email = "" ∨ cfg.apiToken = "" ∨ cfg.projectKey = ""
  · refine ⟨fun _ => ⟨by simp [handleJiraCreate, h], by simp [handleJiraCreate, h], ?_⟩, ?_⟩
    · intro m hm
      simp [handleJiraCreate, h] at hm
    · constructor
      · rintro ⟨m, hm⟩
        simp [handleJiraCreate, h] at hm
      · rintro ⟨h1, h2, h3, h4⟩
        exact absurd h (by tauto)
  · push_neg at h
    refine ⟨fun habs => absurd habs (by tauto), ?_⟩
    constructor
    · intro _
      exact h
    · intro _
      refine ⟨none, ?_⟩
      simp [handleJiraCreate, h.1, h.2.1, h.2.2.1, h.2.2.2]

/-- C8 witness: a config with an empty API token goes straight to `error`
with the configuration message; a fully filled config enters `loading`. -/
theorem jira_create_requires_config_witness :
    ((handleJiraCreate jiraCfgNoToken).updates
        = [(JiraStatus.error, some "Jira config is missing.")] ∧
      (handleJiraCreate jiraCfgNoToken).networkRequests = 0 ∧
      ∀ m, (JiraStatus.loading, m) ∉ (handleJiraCreate jiraCfgNoToken).updates) ∧
    (∃ m, (JiraStatus.loading, m) ∈ (handleJiraCreate jiraCfgFull).updates) :=
  ⟨(jira_create_requires_config jiraCfgNoToken).1
      (Or.inr (Or.inr (Or.inl rfl))),
   (jira_create_requires_config jiraCfgFull).2.mpr
      (by refine ⟨?_, ?_, ?_, ?_⟩ <;> decide)⟩

/-- A middle factor of a three-way concatenation occurs in it. -/
theorem strOccurs_mid (a p q : String) : strOccurs a (p ++ a ++ q) :=
  ⟨p, q, rfl⟩

/-- A left factor occurs in a concatenation. -/
theorem strOccurs_head (a q : String) : strOccurs a (a ++ q) :=
  ⟨"", q, by rw [String.empty_append]⟩

/-- Occurrence is preserved by appending on the right. -/
theorem strOccurs_append_left {a m : String} (h : strOccurs a m) (c : String) :
    strOccurs a (m ++ c) := by
  rcases h with ⟨p, q, hpq⟩
  exact ⟨p, q ++ c, by rw [hpq, String.append_assoc (p ++ a) q c]⟩

/-- Occurrence is preserved by prepending on the left. -/
theorem strOccurs_append_right {a m : String} (c : String) (h : strOccurs a m) :
    strOccurs a (c ++ m) := by
  rcases h with ⟨p, q, hpq⟩
  refine ⟨c ++ p, q, ?_⟩
  rw [hpq, ← String.append_assoc c (p ++ a) q, ← String.append_assoc c p a]

/-- Whatever occurs in `environmentHint bug` occurs in the whole prompt. -/
theorem strOccurs_buildPrompt_of_hint {a : String} (bug : BugData)
    (hasImage : Bool) (h : strOccurs a (environmentHint bug)) :
    strOccurs a (buildPrompt bug hasImage) :=
  strOccurs_append_left (strOccurs_append_right (promptHead bug) h) (promptTail hasImage)

/-- Whatever occurs in one of the environment bullet lines occurs in the
partial-hint block. -/
theorem strOccurs_hintBlock_of_envLines {a : String} (bug : BugData)
    (h : strOccurs a (envLines bug)) : strOccurs a (hintBlock bug) :=
  strOccurs_append_right (hintHeader ++ inferMissingSentence)
    (strOccurs_append_right "\n" h)

/-- C6: a bug with no environment hints yields the full-inference
instruction (which covers browser, OS and device, from context and the
screenshot if available); a bug with at least one hint yields the
partial-hint block, which contains each supplied value verbatim after its
bullet label, renders each missing one as `Not provided`, and carries the
infer-the-missing-ones instruction. -/
theorem prompt_environment_inference (bug : BugData) (hasImage : Bool) :
    (bug.browser = "" ∧ bug.os = "" ∧ bug.device = "" →
      environmentHint bug = fullInferenceSentence ∧
      strOccurs fullInferenceSentence (buildPrompt bug hasImage)) ∧
    ((bug.browser ≠ "" ∨ bug.os ≠ "" ∨ bug.device ≠ "") →
      strOccurs inferMissingSentence (buildPrompt bug hasImage) ∧
      (bug.browser ≠ "" → strOccurs ("- Browser: " ++ bug.browser) (buildPrompt bug hasImage)) ∧
      (bug.os ≠ "" → strOccurs ("- OS: " ++ bug.os) (buildPrompt bug hasImage)) ∧
      (bug.device ≠ "" → strOccurs ("- Device: " ++ bug.device) (buildPrompt bug hasImage)) ∧
      (bug.browser = "" → strOccurs ("- Browser: " ++ "Not provided") (buildPrompt bug hasImage)) ∧
      (bug.os = "" → strOccurs ("- OS: " ++ "Not provided") (buildPrompt bug hasImage)) ∧
      (bug.device = "" → strOccurs ("- Device: " ++ "Not provided") (buildPrompt bug hasImage))) := by
  constructor
  · rintro ⟨hb, ho, hd⟩
    have hcond : ¬ (bug.browser ≠ "" ∨ bug.os ≠ "" ∨ bug.device ≠ "") := by
      simp [hb, ho, hd]
    have hhint : environmentHint bug = fullInferenceSentence := by
      simp [environmentHint, hcond]
    refine ⟨hhint, ?_⟩
    have : strOccurs (environmentHint bug) (buildPrompt bug hasImage) :=
      strOccurs_mid (environmentHint bug) (promptHead bug) (promptTail hasImage)
    rwa [hhint] at this
  · intro hcond
    have hhint : environmentHint bug = hintBlock bug := by
      simp [environmentHint, hcond]
    have hocc : ∀ a : String, strOccurs a (hintBlock bug) →
        strOccurs a (buildPrompt bug hasImage) := by
      intro a ha
      exact strOccurs_buildPrompt_of_hint bug hasImage (hhint ▸ ha)
    refine ⟨?_, ?_, ?_, ?_, ?_, ?_, ?_⟩
    · exact hocc _ (strOccurs_mid inferMissingSentence hintHeader ("\n" ++ envLines bug))
    · intro hb
      refine hocc _ (strOccurs_hintBlock_of_envLines bug ?_)
      have hline : browserLine bug = ("- Browser: " ++ bug.browser) ++ "\n" := by
        rw [browserLine, orDefault, if_neg hb, String.append_assoc]
      exact strOccurs_append_left (hline ▸ strOccurs_head _ "\n") (osLine bug ++ deviceLine bug)
    · intro ho
      refine hocc _ (strOccurs_hintBlock_of_envLines bug ?_)
      have hline : osLine bug = ("- OS: " ++ bug.os) ++ "\n" := by
        rw [osLine, orDefault, if_neg ho, String.append_assoc]
      exact strOccurs_append_right (browserLine bug)
        (strOccurs_append_left (hline ▸ strOccurs_head _ "\n") (deviceLine bug))
    · intro hd
      refine hocc _ (strOccurs_hintBlock_of_envLines bug ?_)
      have hline : deviceLine bug = ("- Device: " ++ bug.device) ++ "\n" := by
        rw [deviceLine, orDefault, if_neg hd, String.append_assoc]
      exact strOccurs_append_right (browserLine bug)
        (strOccurs_append_right (osLine bug) (hline ▸ strOccurs_head _ "\n"))
    · intro hb
      refine hocc _ (strOccurs_hintBlock_of_envLines bug ?_)
      have hline : browserLine bug = ("- Browser: " ++ "Not provided") ++ "\n" := by
        rw [browserLine, orDefault, if_pos hb, String.append_assoc]
      exact strOccurs_append_left (hline ▸ strOccurs_head _ "\n") (osLine bug ++ deviceLine bug)
    · intro ho
      refine hocc _ (strOccurs_hintBlock_of_envLines bug ?_)
      have hline : osLine bug = ("- OS: " ++ "Not provided") ++ "\n" := by
        rw [osLine, orDefault, if_pos ho, String.append_assoc]
      exact strOccurs_append_right (browserLine bug)
        (strOccurs_append_left (hline ▸ strOccurs_head _ "\n") (deviceLine bug))
    · intro hd
      refine hocc _ (strOccurs_hintBlock_of_envLines bug ?_)
      have hline : deviceLine bug = ("- Device: " ++ "Not provided") ++ "\n" := by
        rw [deviceLine, orDefault, if_pos hd, String.append_assoc]
      exact strOccurs_append_right (browserLine bug)
        (strOccurs_append_right (osLine bug) (hline ▸ strOccurs_head _ "\n"))

/-- C6 witness: the hint-free bug's prompt carries the full-inference
sentence; the browser-hinted bug's prompt carries "Firefox" verbatim, the
infer-the-missing instruction, and `Not provided` for the missing OS. -/
theorem prompt_environment_inference_witness :
    (environmentHint bugNoHints = fullInferenceSentence ∧
      strOccurs fullInferenceSentence (buildPrompt bugNoHints true)) ∧
    strOccurs inferMissingSentence (buildPrompt bugBrowserHint false) ∧
    strOccurs ("- Browser: " ++ "Firefox") (buildPrompt bugBrowserHint false) ∧
    strOccurs ("- OS: " ++ "Not provided") (buildPrompt bugBrowserHint false) := by
  have h1 := (prompt_environment_inference bugNoHints true).1 ⟨rfl, rfl, rfl⟩
  have h2 := (prompt_environment_inference bugBrowserHint false).2
    (Or.inl (by decide))
  exact ⟨h1, h2.1, h2.2.1 (by decide), h2.2.2.2.2.2.1 rfl⟩

set_option maxRecDepth 100000 in
/-- C3 counterexample: a parseable response missing the required `impact`
field is returned by `generateBugReport` as a report — it is not rejected
with the invalid-format error, contradicting the claim that the client
fails whenever a required schema field is absent. -/
theorem missing_field_response_not_rejected_counterexample :
    generateBugReportParse jsonMissingImpact = Except.ok parsedMissingImpact ∧
      hasRequiredFields parsedMissingImpact = false := by
  exact ⟨rfl, rfl⟩

/-- C3 (amended): `generateBugReport` raises the invalid-format error
exactly when the response text is not parseable JSON; a parseable response
is returned as the report unvalidated, even when required schema fields are
missing (schema conformance is delegated to the model-side
`responseSchema` config). -/
theorem generate_report_rejects_exactly_unparseable (text : String) :
    (∃ e, generateBugReportParse text = Except.error e) ↔ jsonParse text = none := by
  cases h : jsonParse text <;> simp [generateBugReportParse, h]

theorem dropWhile_append_cons {α : Type} (p : α → Bool) (xs : List α) (y : α)
    (ys : List α) (hy : p y = false) :
    List.dropWhile p (xs ++ y :: ys) = List.dropWhile p xs ++ y :: ys := by
  induction xs with
  | nil => simp [List.dropWhile, hy]
  | cons a l ih =>
    by_cases ha : p a
    · simpa [List.dropWhile, ha] using ih
    · simp [List.dropWhile, ha]

theorem takeWhile_block {α : Type} (p : α → Bool) (xs : List α) (y : α)
    (ys : List α) (hxs : ∀ x ∈ xs, p x = true) (hy : p y = false) :
    List.takeWhile p (xs ++ y :: ys) = xs := by
  induction xs with
  | nil => simp [List.takeWhile, hy]
  | cons a l ih =>
    have ha : p a = true := hxs a (List.mem_cons_self a l)
    simp [List.takeWhile, ha]
    exact ih (fun x hx => hxs x (List.mem_cons_of_mem a hx))

theorem dropWhile_all_append {α : Type} (p : α → Bool) (xs ys : List α)
    (hxs : ∀ x ∈ xs, p x = true) :
    List.dropWhile p (xs ++ ys) = List.dropWhile p ys := by
  induction xs with
  | nil => simp
  | cons a l ih =>
    have ha : p a = true := hxs a (List.mem_cons_self a l)
    simp [List.dropWhile, ha]
    exact ih (fun x hx => hxs x (List.mem_cons_of_mem a hx))

theorem trimLeftC_ws_cons {c : Char} (cs : List Char)
    (hc : c.isWhitespace = true) : trimLeftC (c :: cs) = trimLeftC cs := by
  simp [trimLeftC, List.dropWhile, hc]

theorem trimLeftC_no_ws_cons {c : Char} (cs : List Char)
    (hc : c.isWhitespace = false) : trimLeftC (c :: cs) = c :: cs := by
  simp [trimLeftC, List.dropWhile, hc]

theorem trimRightC_anchor (a : List Char) (y : Char) (b : List Char)
    (hy : y.isWhitespace = false) :
    trimRightC (a ++ y :: b) = a ++ y :: trimRightC b := by
  unfold trimRightC
  rw [List.reverse_append, List.reverse_cons]
  rw [List.append_assoc, List.singleton_append]
  rw [dropWhile_append_cons _ _ _ _ hy]
  simp

theorem splitLinesC_ne_nil (cs : List Char) : splitLinesC cs ≠ [] := by
  induction cs with
  | nil => simp [splitLinesC]
  | cons c l ih =>
    by_cases hc : c = '\n'
    · simp [splitLinesC, hc]
    · simp only [splitLinesC, hc, if_false]
      cases h : splitLinesC l with
      | nil => simp
      | cons x xs => simp

theorem splitLinesC_nl_cons (cs : List Char) :
    splitLinesC ('\n' :: cs) = [] :: splitLinesC cs := by
  simp [splitLinesC]

theorem splitLinesC_cons_of_ne {c : Char} (cs : List Char) (hc : ¬ c = '\n') :
    splitLinesC (c :: cs) =
      (c :: (splitLinesC cs).headD []) :: (splitLinesC cs).tail := by
  simp only [splitLinesC, hc, if_false]
  cases h : splitLinesC cs with
  | nil => exact absurd h (splitLinesC_ne_nil cs)
  | cons x xs => simp

theorem splitLinesC_append_nl (a b : List Char) :
    splitLinesC (a ++ '\n' :: b) = splitLinesC a ++ splitLinesC b := by
  induction a with
  | nil => simp [splitLinesC]
  | cons c l ih =>
    by_cases hc : c = '\n'
    · subst hc
      simp [splitLinesC_nl_cons, ih]
    · rw [List.cons_append, splitLinesC_cons_of_ne _ hc, splitLinesC_cons_of_ne _ hc, ih]
      cases h : splitLinesC l with
      | nil => exact absurd h (splitLinesC_ne_nil l)
      | cons x xs => simp

theorem splitLinesC_no_nl (cs : List Char) (h : ¬ '\n' ∈ cs) :
    splitLinesC cs = [cs] := by
  induction cs with
  | nil => simp [splitLinesC]
  | cons c l ih =>
    have hc : ¬ c = '\n' := fun he => h (he ▸ List.mem_cons_self c l)
    have hl : ¬ '\n' ∈ l := fun he => h (List.mem_cons_of_mem c he)
    rw [splitLinesC_cons_of_ne _ hc, ih hl]
    simp

theorem digitChar_isDigit (n : Nat) (h : n < 10) : (Nat.digitChar n).isDigit = true := by
  interval_cases n <;> decide

theorem natDigitsAux_digits (fuel n : Nat) :
    ∀ c ∈ natDigitsAux fuel n, c.isDigit = true := by
  induction fuel generalizing n with
  | zero => intro c hc; simp [natDigitsAux] at hc
  | succ f ih =>
    intro c hc
    by_cases h : n < 10
    · simp [natDigitsAux, h] at hc
      subst hc
      exact digitChar_isDigit n h
    · simp [natDigitsAux, h] at hc
      rcases hc with hc | hc
      · exact ih (n / 10) c hc
      · subst hc
        exact digitChar_isDigit (n % 10) (Nat.mod_lt n (by norm_num))

theorem natDigitsAux_ne_nil (fuel n : Nat) : natDigitsAux (fuel + 1) n ≠ [] := by
  by_cases h : n < 10 <;> simp [natDigitsAux, h]

theorem decimalStr_digits (n : Nat) : ∀ c ∈ (decimalStr n).data, c.isDigit = true :=
  natDigitsAux_digits (n + 1) n

theorem decimalStr_ne_nil (n : Nat) : (decimalStr n).data ≠ [] :=
  natDigitsAux_ne_nil n n

theorem dropNumberMark_spec (d : List Char) (s : List Char)
    (hd : d ≠ []) (hdig : ∀ c ∈ d, c.isDigit = true) :
    dropNumberMark (d ++ '.' :: ' ' :: s) = s := by
  have hdot : ('.').isDigit = false := by decide
  have h1 : List.dropWhile Char.isDigit (d ++ '.' :: ' ' :: s) = '.' :: ' ' :: s := by
    rw [dropWhile_all_append _ _ _ hdig]
    simp [List.dropWhile, hdot]
  have h2 : List.takeWhile Char.isDigit (d ++ '.' :: ' ' :: s) = d :=
    takeWhile_block _ _ _ _ hdig hdot
  rw [dropNumberMark, h1, h2]
  simp [hd]

set_option maxRecDepth 10000 in
set_option maxHeartbeats 1000000 in
theorem plainText_data_shape (r : GeneratedReport) :
    (generatePlainTextForCopy r).data
      = plainFrontData r
        ++ '*' :: trimRightC ('\n' :: ((renderSuggestedFix r.suggestedFix).data
            ++ "\n        ".data)) := by
  have hmk : ∀ l : List Char, (String.mk l).data = l := fun _ => rfl
  have hform : trimLeftC ("\n" ++ plainBody r ++ "\n        ").data
      = plainFrontData r
        ++ '*' :: ('\n' :: ((renderSuggestedFix r.suggestedFix).data ++ "\n        ".data)) := by
    simp only [plainBody, String.data_append, List.append_assoc, List.cons_append,
      List.nil_append]
    rw [trimLeftC_ws_cons _ (by decide), trimLeftC_no_ws_cons _ (by decide)]
    simp only [plainFrontData, String.data_append, List.append_assoc, List.cons_append,
      List.nil_append]
  unfold generatePlainTextForCopy jsTrim
  rw [hmk, hform]
  exact trimRightC_anchor (plainFrontData r) '*' _ (by decide)

set_option maxRecDepth 10000 in
set_option maxHeartbeats 1000000 in
theorem plainText_lines_shape (r : GeneratedReport) :
    (generatePlainTextForCopy r).data
      = ("**Bug Report: ".data ++ (r.suggestedTitle.data ++ "**".data))
        ++ '\n' :: ('\n' :: ("**Summary:**".data
        ++ '\n' :: (r.summary.data
        ++ '\n' :: ('\n' :: (stepsHeaderLine
        ++ '\n' :: ((plainStepsBlock r).data
        ++ '\n' :: ('\n' :: plainAfterStepsData r))))))) := by
  rw [plainText_data_shape]
  simp only [plainFrontData, plainAfterStepsData, stepsHeaderLine, String.data_append,
    List.append_assoc, List.cons_append, List.nil_append]

theorem joinLines_split (ls : List String) (hne : ls ≠ [])
    (hnn : ∀ l ∈ ls, ¬ '\n' ∈ l.data) :
    splitLinesC (joinLines ls).data = ls.map String.data := by
  induction ls with
  | nil => exact absurd rfl hne
  | cons l rest ih =>
    cases rest with
    | nil =>
      simp [joinLines, splitLinesC_no_nl l.data (hnn l (List.mem_cons_self l []))]
    | cons l2 rest2 =>
      have hdata : (joinLines (l :: l2 :: rest2)).data
          = l.data ++ '\n' :: (joinLines (l2 :: rest2)).data := by
        simp [joinLines, String.data_append]
      rw [hdata, splitLinesC_append_nl,
        splitLinesC_no_nl l.data (hnn l (List.mem_cons_self l _)),
        ih (by simp) (fun x hx => hnn x (List.mem_cons_of_mem l hx))]
      simp

theorem numberedLines_no_nl (i : Nat) (ls : List String)
    (h : ∀ s ∈ ls, ¬ '\n' ∈ s.data) :
    ∀ l ∈ numberedLines i ls, ¬ '\n' ∈ l.data := by
  induction ls generalizing i with
  | nil => intro l hl; simp [numberedLines] at hl
  | cons s rest ih =>
    intro l hl
    simp only [numberedLines, List.mem_cons] at hl
    rcases hl with hl | hl
    · subst hl
      intro hmem
      simp only [String.data_append] at hmem
      rcases List.mem_append.mp hmem with hm | hm
      · rcases List.mem_append.mp hm with hm | hm
        · have := decimalStr_digits (i + 1) '\n' hm
          simp at this
        · revert hm; decide
      · exact h s (List.mem_cons_self s rest) hm
    · exact ih (i + 1) (fun x hx => h x (List.mem_cons_of_mem s hx)) l hl

theorem numberedLines_data_ne_nil (i : Nat) (ls : List String) :
    ∀ l ∈ numberedLines i ls, l.data ≠ [] := by
  induction ls generalizing i with
  | nil => intro l hl; simp [numberedLines] at hl
  | cons s rest ih =>
    intro l hl
    simp only [numberedLines, List.mem_cons] at hl
    rcases hl with hl | hl
    · subst hl
      simp only [String.data_append]
      intro habs
      have := List.append_eq_nil.mp habs
      have h2 := List.append_eq_nil.mp this.1
      exact decimalStr_ne_nil (i + 1) h2.1
    · exact ih (i + 1) l hl

theorem numberedLines_strip (i : Nat) (ls : List String) :
    (numberedLines i ls).map (fun l => (⟨dropNumberMark l.data⟩ : String)) = ls := by
  induction ls generalizing i with
  | nil => simp [numberedLines]
  | cons s rest ih =>
    simp only [numberedLines, List.map_cons]
    congr 1
    · have hdata : ((decimalStr (i + 1) ++ ". " ++ s)).data
          = (decimalStr (i + 1)).data ++ '.' :: ' ' :: s.data := by
        simp [String.data_append]
      rw [hdata, dropNumberMark_spec _ _ (decimalStr_ne_nil (i + 1))
        (decimalStr_digits (i + 1))]
    · exact ih (i + 1)

set_option maxRecDepth 10000 in
set_option maxHeartbeats 1000000 in
theorem plainText_lines (r : GeneratedReport)
    (htitle : ¬ '\n' ∈ r.suggestedTitle.data)
    (hsum : ¬ '\n' ∈ r.summary.data) :
    splitLinesC (generatePlainTextForCopy r).data
      = ("**Bug Report: ".data ++ (r.suggestedTitle.data ++ "**".data))
        :: [] :: "**Summary:**".data :: r.summary.data :: [] :: stepsHeaderLine
        :: (splitLinesC (plainStepsBlock r).data
            ++ [] :: splitLinesC (plainAfterStepsData r)) := by
  have ht1 : ¬ '\n' ∈ ("**Bug Report: ".data ++ (r.suggestedTitle.data ++ "**".data)) := by
    intro h
    rcases List.mem_append.mp h with h | h
    · revert h; decide
    · rcases List.mem_append.mp h with h | h
      · exact htitle h
      · revert h; decide
  have h2 : splitLinesC ("**Summary:**".data) = ["**Summary:**".data] := by decide
  have h4 : splitLinesC stepsHeaderLine = [stepsHeaderLine] := by decide
  rw [plainText_lines_shape]
  rw [splitLinesC_append_nl, splitLinesC_no_nl _ ht1, splitLinesC_nl_cons,
    splitLinesC_append_nl, h2, splitLinesC_append_nl, splitLinesC_no_nl _ hsum,
    splitLinesC_nl_cons, splitLinesC_append_nl, h4, splitLinesC_append_nl,
    splitLinesC_nl_cons]
  simp

set_option maxRecDepth 10000 in
set_option maxHeartbeats 1000000 in
/-- C9 (amended): for every report whose suggested title, summary and
reproduction steps are single-line (contain no newline) and whose summary is
not the literal steps-section header line, parsing the numbered steps back
out of the plain-text rendering recovers the original ordered step list
exactly.  (The restriction is forced: the rendering is not injective on
step lists containing newlines, see the counterexample.) -/
theorem parse_plain_roundtrip (r : GeneratedReport)
    (htitle : ¬ '\n' ∈ r.suggestedTitle.data)
    (hsum : ¬ '\n' ∈ r.summary.data)
    (hsum_ne : r.summary ≠ "**Steps to Reproduce:**")
    (hsteps : ∀ s ∈ r.stepsToReproduce, ¬ '\n' ∈ s.data) :
    parseNumberedSteps (generatePlainTextForCopy r) = r.stepsToReproduce := by
  have hb1 : (("**Bug Report: ".data ++ (r.suggestedTitle.data ++ "**".data))
      == stepsHeaderLine) = false := by
    refine beq_eq_false_iff_ne.mpr ?_
    intro h
    simp [stepsHeaderLine] at h
  have hb2 : (([] : List Char) == stepsHeaderLine) = false := by decide
  have hb3 : (("**Summary:**".data : List Char) == stepsHeaderLine) = false := by decide
  have hb4 : ((r.summary.data : List Char) == stepsHeaderLine) = false := by
    refine beq_eq_false_iff_ne.mpr ?_
    intro h
    exact hsum_ne (String.ext h)
  have hb5 : ((stepsHeaderLine : List Char) == stepsHeaderLine) = true := by decide
  unfold parseNumberedSteps
  rw [plainText_lines r htitle hsum]
  rw [List.dropWhile_cons_of_pos (by simp [stepsHeaderLine]),
    List.dropWhile_cons_of_pos (by decide),
    List.dropWhile_cons_of_pos (by decide),
    List.dropWhile_cons_of_pos
      (by simp only [Bool.not_eq_true', beq_eq_false_iff_ne, ne_eq]
          exact fun h => hsum_ne (String.ext h)),
    List.dropWhile_cons_of_pos (by decide),
    List.dropWhile_cons_of_neg (by simp [hb5])]
  simp only [List.drop_succ_cons, List.drop_zero]
  cases hls : r.stepsToReproduce with
  | nil =>
    have hstep0 : (plainStepsBlock r).data = [] := by
      simp [plainStepsBlock, hls, numberedLines, joinLines]
    rw [hstep0]
    simp [splitLinesC]
  | cons s0 srest =>
    have hlines : splitLinesC (plainStepsBlock r).data
        = (numberedLines 0 (s0 :: srest)).map String.data := by
      rw [plainStepsBlock, hls]
      exact joinLines_split _ (by simp [numberedLines])
        (numberedLines_no_nl 0 _ (by rw [← hls]; exact hsteps))
    rw [hlines]
    rw [takeWhile_block _ _ _ _ ?_ (by decide)]
    · rw [List.map_map]
      have := numberedLines_strip 0 (s0 :: srest)
      simpa using this
    · intro x hx
      rcases List.mem_map.mp hx with ⟨l, hl, hlx⟩
      subst hlx
      have hne := numberedLines_data_ne_nil 0 (s0 :: srest) l hl
      simp [List.isEmpty_iff, hne]

set_option maxRecDepth 10000 in
set_option maxHeartbeats 1000000 in
theorem jiraMarkup_data_shape (r : GeneratedReport) :
    (generateJiraMarkup r).data
      = jiraFrontData r
        ++ 'x' :: trimRightC ('\n' :: ((renderSuggestedFix r.suggestedFix).data
            ++ "\n    ".data)) := by
  have hmk : ∀ l : List Char, (String.mk l).data = l := fun _ => rfl
  have hform : trimLeftC ("\n" ++ jiraBody r ++ "\n    ").data
      = jiraFrontData r
        ++ 'x' :: ('\n' :: ((renderSuggestedFix r.suggestedFix).data ++ "\n    ".data)) := by
    simp only [jiraBody, String.data_append, List.append_assoc, List.cons_append,
      List.nil_append]
    rw [trimLeftC_ws_cons _ (by decide), trimLeftC_no_ws_cons _ (by decide)]
    simp only [jiraFrontData, String.data_append, List.append_assoc, List.cons_append,
      List.nil_append]
  unfold generateJiraMarkup jsTrim
  rw [hmk, hform]
  exact trimRightC_anchor (jiraFrontData r) 'x' _ (by decide)

set_option maxRecDepth 10000 in
set_option maxHeartbeats 1000000 in
/-- C10: for every report with no suggested fix, both the plain-text copy
rendering and the Jira markup rendering still end with a Suggested Fix
section whose body is the literal `N/A` — the section is never omitted from
these text renderings — while the on-screen display omits the section. -/
theorem suggestedFix_na_sections (r : GeneratedReport) (h : r.suggestedFix = none) :
    (∃ p, generatePlainTextForCopy r = p ++ "**Suggested Fix:**\nN/A") ∧
      (∃ p, generateJiraMarkup r = p ++ "h2. Suggested Fix\nN/A") ∧
      displayShowsSuggestedFix r = false := by
  refine ⟨⟨⟨plainPreFixData r ++ ['\n', '\n']⟩, String.ext ?_⟩,
    ⟨⟨jiraPreFixData r ++ ['\n', '\n']⟩, String.ext ?_⟩, ?_⟩
  · rw [plainText_data_shape, h]
    rw [show trimRightC ('\n' :: ((renderSuggestedFix none).data ++ "\n        ".data))
        = ['\n', 'N', '/', 'A'] from by decide]
    simp only [String.data_append, plainFrontData, plainPreFixData, List.append_assoc,
      List.cons_append, List.nil_append]
  · rw [jiraMarkup_data_shape, h]
    rw [show trimRightC ('\n' :: ((renderSuggestedFix none).data ++ "\n    ".data))
        = ['\n', 'N', '/', 'A'] from by decide]
    simp only [String.data_append, jiraFrontData, jiraPreFixData, List.append_assoc,
      List.cons_append, List.nil_append]
  · simp [displayShowsSuggestedFix, h]

set_option maxRecDepth 100000 in
/-- C9 counterexample: two reports with different ordered step lists render
to the same plain text, so no parser can recover the original steps from
the rendering for every report; in particular the modelled parser returns
the wrong list for one of them. -/
theorem plain_roundtrip_counterexample :
    generatePlainTextForCopy reportNestedStep = generatePlainTextForCopy reportSplitSteps ∧
      reportNestedStep.stepsToReproduce ≠ reportSplitSteps.stepsToReproduce ∧
      parseNumberedSteps (generatePlainTextForCopy reportNestedStep)
        ≠ reportNestedStep.stepsToReproduce := by
  exact ⟨by decide, by decide, by decide⟩

set_option maxRecDepth 100000 in
/-- C9 witness: the round trip evaluated on a concrete three-step report. -/
theorem parse_plain_roundtrip_witness :
    parseNumberedSteps (generatePlainTextForCopy reportRound)
      = reportRound.stepsToReproduce :=
  parse_plain_roundtrip reportRound (by decide) (by decide) (by decide) (by decide)

/-- C10 witness: the `N/A` sections evaluated on a concrete fix-less
report. -/
theorem suggestedFix_na_sections_witness :
    (∃ p, generatePlainTextForCopy reportNoFix = p ++ "**Suggested Fix:**\nN/A") ∧
      (∃ p, generateJiraMarkup reportNoFix = p ++ "h2. Suggested Fix\nN/A") ∧
      displayShowsSuggestedFix reportNoFix = false :=
  suggestedFix_na_sections reportNoFix rfl

end BugReportGen
